import Mathlib

/-
  Shallow embedding of the Web-Aware-RAG-Engine service:
  - models.py   : IngestionStatus, IngestionRecord, QueryLog
  - database.py : the record store (a committed list of rows; the `url`
                  column's UNIQUE constraint is enforced at commit time)
  - utils.py    : ingest_url_to_faiss (web loader and text splitter are
                  external collaborators, passed in as function parameters;
                  the on-disk FAISS index is `none` when no file exists at
                  the index path, `some chunks` otherwise)
  - worker.py   : ingest_url_task (the Celery task body, as a state
                  transformer; `commits` records the database state at each
                  db.commit() in order, and `result` is `.ok msg` for a
                  normal return and `.error e` for a raised exception)
  - main.py     : ingest_url, query, ingest_auto endpoint handlers
                  (responses are modelled as a status code plus detail text)
-/

namespace RAG

/-- Status enum from models.py (class IngestionStatus). -/
inductive IngestionStatus where
  | pending
  | processing
  | completed
  | failed
deriving DecidableEq, Repr

/-- One row of the `ingestions` table (models.py, class IngestionRecord).
Timestamps are modelled as naturals. -/
structure IngestionRecord where
  id : Nat
  url : String
  status : IngestionStatus
  created_at : Nat
  completed_at : Option Nat
  error_message : Option String
  chunk_count : Option Nat
deriving DecidableEq, Repr

/-- One row of the `query_logs` table (models.py, class QueryLog).
`results_metadata` keeps one metadata string per result, in order. -/
structure QueryLog where
  query_text : String
  response_text : String
  results_metadata : List String
deriving DecidableEq, Repr

/-- The committed contents of the `ingestions` table, in insertion order. -/
abbrev RecordStore := List IngestionRecord

/-- A freshly inserted row: status defaults to pending, created_at to the
insertion time, and the nullable columns to NULL (models.py defaults). -/
def mkRecord (id : Nat) (url : String) (now : Nat) : IngestionRecord :=
  { id := id, url := url, status := .pending, created_at := now,
    completed_at := none, error_message := none, chunk_count := none }

/-- Does some committed row already have this url? (the UNIQUE constraint
on ingestions.url). -/
def hasUrl (db : RecordStore) (u : String) : Bool :=
  db.any (fun r => r.url == u)

/-- db.add(IngestionRecord(url=..., status=pending)); db.commit().
The commit raises (IntegrityError) when the url is already present;
otherwise the new row is appended with the next autoincrement id
(modelled as row count + 1). -/
def createRecord (db : RecordStore) (u : String) (now : Nat) :
    Except String RecordStore :=
  if hasUrl db u then
    .error "UNIQUE constraint failed: ingestions.url"
  else
    .ok (db ++ [mkRecord (db.length + 1) u now])

/-- db.query(IngestionRecord).filter_by(url=url).first() -/
def findRecord (db : RecordStore) (u : String) : Option IngestionRecord :=
  db.find? (fun r => r.url == u)

/-- Mutate the first row whose url matches, leaving every other row as is
(the ORM mutates the object returned by .first(), then commits). -/
def updateFirst : RecordStore → String → (IngestionRecord → IngestionRecord) → RecordStore
  | [], _, _ => []
  | r :: rs, u, f => if r.url == u then f r :: rs else r :: updateFirst rs u f

/-- Documents returned by the web loader (external collaborator). -/
abbrev Doc := String

/-- Chunks produced by the text splitter (external collaborator). -/
abbrev Chunk := String

/-- The on-disk FAISS index at FAISS_INDEX_PATH: `none` when
os.path.exists(index_path) is false, otherwise the stored chunks. -/
abbrev FaissIndex := Option (List Chunk)

/-- utils.py ingest_url_to_faiss. The loader and splitter are external
library calls, passed in as parameters. Returns the chunk count together
with the list of chunks the saved index now holds; raises (".error") when
the loader yields no documents. -/
def ingest_url_to_faiss (load : String → List Doc) (split : List Doc → List Chunk)
    (url : String) (index : FaissIndex) : Except String (Nat × List Chunk) :=
  let docs := load url
  if docs.isEmpty then
    .error ("No content found at " ++ url)
  else
    let chunks := split docs
    let newIndex : List Chunk :=
      match index with
      | some existing => existing ++ chunks
      | none => chunks
    .ok (chunks.length, newIndex)

/-- State visible to the worker: the ingestions table and the on-disk index. -/
structure WorkerState where
  db : RecordStore
  index : FaissIndex
deriving DecidableEq, Repr

/-- Everything observable after one run of the Celery task: the final
committed table, the final on-disk index, the task's outcome (`.ok` the
returned message, `.error` the exception it re-raised), and the table
state at each db.commit() in order. -/
structure TaskOutcome where
  db : RecordStore
  index : FaissIndex
  result : Except String String
  commits : List RecordStore
deriving Repr

/-- worker.py ingest_url_task. Looks the record up by url; if present,
commits status=processing, runs ingest_url_to_faiss, then commits either
status=completed with chunk_count, or status=failed with error_message
before re-raising. When no record exists the status bookkeeping is
skipped but the ingestion itself still runs. -/
def ingest_url_task (load : String → List Doc) (split : List Doc → List Chunk)
    (url : String) (s : WorkerState) : TaskOutcome :=
  match findRecord s.db url with
  | some _ =>
    let db1 := updateFirst s.db url (fun r => { r with status := .processing })
    match ingest_url_to_faiss load split url s.index with
    | .ok (chunk_count, newIndex) =>
      let db2 := updateFirst db1 url
        (fun r => { r with status := .completed, chunk_count := some chunk_count })
      { db := db2, index := some newIndex,
        result := .ok (" Ingested " ++ toString chunk_count ++ " chunks from " ++ url),
        commits := [db1, db2] }
    | .error e =>
      let db2 := updateFirst db1 url
        (fun r => { r with status := .failed, error_message := some e })
      { db := db2, index := s.index, result := .error e, commits := [db1, db2] }
  | none =>
    match ingest_url_to_faiss load split url s.index with
    | .ok (chunk_count, newIndex) =>
      { db := s.db, index := some newIndex,
        result := .ok (" Ingested " ++ toString chunk_count ++ " chunks from " ++ url),
        commits := [] }
    | .error e =>
      { db := s.db, index := s.index, result := .error e, commits := [] }

/-- An HTTP response: status code and detail/body text. -/
structure Response where
  status_code : Nat
  detail : String
deriving DecidableEq, Repr

/-- State visible to the API process: the two tables, the Celery queue
(urls whose ingest task has actually been enqueued), and the on-disk
index. -/
structure ApiState where
  db : RecordStore
  queue : List String
  query_logs : List QueryLog
  index : FaissIndex
deriving DecidableEq, Repr

/-- main.py POST /ingest-url. Creates the record (commit), then enqueues
the Celery task; on any exception the session is rolled back (discarding
only the uncommitted insert) and a 500 is raised. -/
def ingest_url (s : ApiState) (url : String) (now : Nat) : ApiState × Response :=
  match createRecord s.db url now with
  | .ok db1 =>
    ({ s with db := db1, queue := s.queue ++ [url] },
     { status_code := 200, detail := "Ingestion queued for " ++ url })
  | .error e =>
    (s, { status_code := 500, detail := e })

/-- main.py POST /query. FAISS.load_local raises when no index exists at
FAISS_INDEX_PATH, and the blanket except turns that into a 500 before
any QueryLog is added; otherwise similarity_search (external, passed in
as `search`, returning (page_content, metadata) pairs) runs, the log row
is committed, and the joined contents are returned. -/
def query (search : List Chunk → String → Nat → List (String × String))
    (s : ApiState) (query_text : String) (top_k : Nat) : ApiState × Response :=
  match s.index with
  | none =>
    (s, { status_code := 500,
          detail := "could not load local index at FAISS_INDEX_PATH" })
  | some chunks =>
    let results := search chunks query_text top_k
    let response_text := String.intercalate "\n" (results.map Prod.fst)
    let log : QueryLog :=
      { query_text := query_text, response_text := response_text,
        results_metadata := results.map Prod.snd }
    ({ s with query_logs := s.query_logs ++ [log] },
     { status_code := 200, detail := response_text })

/-- Python str.strip(): drop leading and trailing whitespace. -/
def strip (s : String) : String :=
  ⟨((s.data.dropWhile Char.isWhitespace).reverse.dropWhile Char.isWhitespace).reverse⟩

/-- main.py /ingest-auto CSV handling: urls = the stripped first column of
every non-empty row. -/
def parse_csv_urls (rows : List (List String)) : List String :=
  (rows.filter (fun r => !r.isEmpty)).map (fun r => strip (r.headD ""))

/-- The per-url loop of /ingest-auto: each iteration inserts and COMMITS a
record, collects its id, and builds (but does not yet await) the enqueue
coroutine. The first failing insert raises, ending the loop; the rows
committed by earlier iterations remain in the returned store, and the
last component carries the error when one occurred. -/
def ingest_auto_loop (now : Nat) :
    List String → RecordStore → List Nat → List String →
    RecordStore × List Nat × List String × Option String
  | [], db, ids, pend => (db, ids, pend, none)
  | u :: rest, db, ids, pend =>
    match createRecord db u now with
    | .ok db1 => ingest_auto_loop now rest db1 (ids ++ [db.length + 1]) (pend ++ [u])
    | .error e => (db, ids, pend, some e)

/-- main.py POST /ingest-auto. An empty url list raises HTTPException(400),
which the blanket `except Exception` catches and re-wraps as a 500 whose
detail is str(e). On loop failure, db.rollback() discards only the
uncommitted failing insert — rows committed earlier persist — the built
coroutines are never awaited (nothing is enqueued), and a 500 is raised.
On success every enqueue coroutine is awaited via asyncio.gather. -/
def ingest_auto (s : ApiState) (rows : List (List String)) (now : Nat) :
    ApiState × Response :=
  let urls := parse_csv_urls rows
  if urls.isEmpty then
    (s, { status_code := 500, detail := "400: CSV file is empty or invalid." })
  else
    match ingest_auto_loop now urls s.db [] [] with
    | (db1, _, pend, none) =>
      ({ s with db := db1, queue := s.queue ++ pend },
       { status_code := 200,
         detail := toString urls.length ++ " URLs queued for ingestion" })
    | (db1, _, _, some e) =>
      ({ s with db := db1 }, { status_code := 500, detail := e })

/-- The service state with nothing ingested yet: empty tables, empty
queue, no index file on disk. -/
def emptyState : ApiState := { db := [], queue := [], query_logs := [], index := none }

/-- A loader for a url with no retrievable content. -/
def loadEmpty : String → List Doc := fun _ => []

/-- A loader returning a single fixed document. -/
def loadOne : String → List Doc := fun _ => ["doc"]

/-- A splitter producing one chunk per document. -/
def splitId : List Doc → List Chunk := fun ds => ds

/-- A similarity search returning no results. -/
def searchNone : List Chunk → String → Nat → List (String × String) := fun _ _ _ => []

/-- A record already driven to completed (chunk_count populated). -/
def recCompleted : IngestionRecord :=
  { id := 1, url := "u", status := .completed, created_at := 0,
    completed_at := none, error_message := none, chunk_count := some 3 }

/-- A freshly created record for url "u" (status pending). -/
def recPending : IngestionRecord := mkRecord 1 "u" 0

/-- A service state whose store already holds a record for url "u". -/
def stateWithU : ApiState :=
  { db := [mkRecord 1 "u" 0], queue := [], query_logs := [], index := none }

/-- Looking a url up after updateFirst yields the updated row, provided the
update leaves the url column alone (all worker updates do). -/
theorem findRecord_updateFirst (db : RecordStore) (u : String)
    (f : IngestionRecord → IngestionRecord) (hf : ∀ r, (f r).url = r.url) :
    findRecord (updateFirst db u f) u = (findRecord db u).map f := by
  induction db with
  | nil => rfl
  | cons r rs ih =>
    cases hb : (r.url == u) with
    | true =>
      have hfu : ((f r).url == u) = true := by rw [hf r]; exact hb
      simp [updateFirst, findRecord, hb, hfu]
    | false =>
      simpa [updateFirst, findRecord, hb] using ih

/-- updateFirst leaves the completed_at column of every row untouched when
the update function does (all worker updates do). -/
theorem map_completedAt_updateFirst (db : RecordStore) (u : String)
    (f : IngestionRecord → IngestionRecord)
    (hf : ∀ r, (f r).completed_at = r.completed_at) :
    (updateFirst db u f).map IngestionRecord.completed_at
      = db.map IngestionRecord.completed_at := by
  induction db with
  | nil => rfl
  | cons r rs ih =>
    cases hb : (r.url == u) with
    | true => simp [updateFirst, hb, hf r]
    | false => simp [updateFirst, hb, ih]

/-- Shape of one worker run when the record exists and ingestion succeeds. -/
theorem ingest_url_task_some_ok (load : String → List Doc)
    (split : List Doc → List Chunk) (url : String) (s : WorkerState)
    (r : IngestionRecord) (n : Nat) (idx2 : List Chunk)
    (h : findRecord s.db url = some r)
    (hres : ingest_url_to_faiss load split url s.index = Except.ok (n, idx2)) :
    ingest_url_task load split url s =
      { db := updateFirst (updateFirst s.db url
            (fun r => { r with status := .processing })) url
            (fun r => { r with status := .completed, chunk_count := some n }),
        index := some idx2,
        result := Except.ok (" Ingested " ++ toString n ++ " chunks from " ++ url),
        commits := [updateFirst s.db url (fun r => { r with status := .processing }),
          updateFirst (updateFirst s.db url
            (fun r => { r with status := .processing })) url
            (fun r => { r with status := .completed, chunk_count := some n })] } := by
  unfold ingest_url_task
  rw [h, hres]

/-- Shape of one worker run when the record exists and ingestion raises. -/
theorem ingest_url_task_some_error (load : String → List Doc)
    (split : List Doc → List Chunk) (url : String) (s : WorkerState)
    (r : IngestionRecord) (e : String)
    (h : findRecord s.db url = some r)
    (hres : ingest_url_to_faiss load split url s.index = Except.error e) :
    ingest_url_task load split url s =
      { db := updateFirst (updateFirst s.db url
            (fun r => { r with status := .processing })) url
            (fun r => { r with status := .failed, error_message := some e }),
        index := s.index,
        result := Except.error e,
        commits := [updateFirst s.db url (fun r => { r with status := .processing }),
          updateFirst (updateFirst s.db url
            (fun r => { r with status := .processing })) url
            (fun r => { r with status := .failed, error_message := some e })] } := by
  unfold ingest_url_task
  rw [h, hres]

/-- Shape of one worker run when no record exists and ingestion succeeds. -/
theorem ingest_url_task_none_ok (load : String → List Doc)
    (split : List Doc → List Chunk) (url : String) (s : WorkerState)
    (n : Nat) (idx2 : List Chunk)
    (h : findRecord s.db url = none)
    (hres : ingest_url_to_faiss load split url s.index = Except.ok (n, idx2)) :
    ingest_url_task load split url s =
      { db := s.db, index := some idx2,
        result := Except.ok (" Ingested " ++ toString n ++ " chunks from " ++ url),
        commits := [] } := by
  unfold ingest_url_task
  rw [h, hres]

/-- Shape of one worker run when no record exists and ingestion raises. -/
theorem ingest_url_task_none_error (load : String → List Doc)
    (split : List Doc → List Chunk) (url : String) (s : WorkerState)
    (e : String)
    (h : findRecord s.db url = none)
    (hres : ingest_url_to_faiss load split url s.index = Except.error e) :
    ingest_url_task load split url s =
      { db := s.db, index := s.index, result := Except.error e, commits := [] } := by
  unfold ingest_url_task
  rw [h, hres]

/-- Claim C2, counterexample: statuses are not terminal. Start from a
record already completed (chunk_count 3); a later worker execution whose
fetch fails moves it to failed — a later operation changed a completed
record's status. -/
theorem c2_counterexample :
    recCompleted.status = .completed ∧
    ((findRecord (ingest_url_task loadEmpty splitId "u"
        { db := [recCompleted], index := some ["c1", "c2", "c3"] }).db "u").map
      IngestionRecord.status) = some .failed := ⟨rfl, rfl⟩

/-- Claim C2 (amended): within a single worker execution the record found
by url moves forward — it is committed as processing and then committed as
completed or failed; but terminality is not enforced across executions (a
rerun on a terminal record re-enters processing, see the counterexample). -/
theorem c2_single_run_forward (load : String → List Doc)
    (split : List Doc → List Chunk) (url : String) (s : WorkerState)
    (r : IngestionRecord) (h : findRecord s.db url = some r) :
    ∃ db1 db2, (ingest_url_task load split url s).commits = [db1, db2] ∧
      (findRecord db1 url).map IngestionRecord.status = some .processing ∧
      ((findRecord db2 url).map IngestionRecord.status = some .completed ∨
        (findRecord db2 url).map IngestionRecord.status = some .failed) ∧
      (ingest_url_task load split url s).db = db2 := by
  cases hres : ingest_url_to_faiss load split url s.index with
  | ok p =>
    obtain ⟨n, idx2⟩ := p
    rw [ingest_url_task_some_ok load split url s r n idx2 h hres]
    refine ⟨_, _, rfl, ?_, Or.inl ?_, rfl⟩
    · rw [findRecord_updateFirst _ _
        (fun r => { r with status := .processing }) (fun _ => rfl), h]
      rfl
    · dsimp only
      rw [findRecord_updateFirst _ _
          (fun r => { r with status := .completed, chunk_count := some n })
          (fun _ => rfl),
        findRecord_updateFirst _ _
          (fun r => { r with status := .processing }) (fun _ => rfl), h]
      rfl
  | error e =>
    rw [ingest_url_task_some_error load split url s r e h hres]
    refine ⟨_, _, rfl, ?_, Or.inr ?_, rfl⟩
    · rw [findRecord_updateFirst _ _
        (fun r => { r with status := .processing }) (fun _ => rfl), h]
      rfl
    · dsimp only
      rw [findRecord_updateFirst _ _
          (fun r => { r with status := .failed, error_message := some e })
          (fun _ => rfl),
        findRecord_updateFirst _ _
          (fun r => { r with status := .processing }) (fun _ => rfl), h]
      rfl

/-- Claim C2, witness: the amended theorem applied to a fresh pending
record with a succeeding ingestion. -/
theorem c2_witness :
    ∃ db1 db2, (ingest_url_task loadOne splitId "u"
        { db := [recPending], index := none }).commits = [db1, db2] ∧
      (findRecord db1 "u").map IngestionRecord.status = some .processing ∧
      ((findRecord db2 "u").map IngestionRecord.status = some .completed ∨
        (findRecord db2 "u").map IngestionRecord.status = some .failed) ∧
      (ingest_url_task loadOne splitId "u"
        { db := [recPending], index := none }).db = db2 :=
  c2_single_run_forward loadOne splitId "u"
    { db := [recPending], index := none } recPending rfl

/-- Claim C3: when the ingestion call raises, the worker commits the record
as failed with error_message equal to the (non-empty) raised text, leaves
chunk_count null, and re-raises the original error after that commit (the
failed row is in the last committed state, and the task's outcome is the
same error). -/
theorem c3_failure_recorded (load : String → List Doc)
    (split : List Doc → List Chunk) (url : String) (s : WorkerState)
    (r : IngestionRecord) (msg : String)
    (h : findRecord s.db url = some r)
    (hres : ingest_url_to_faiss load split url s.index = Except.error msg)
    (hm : msg ≠ "") (hc : r.chunk_count = none) :
    (ingest_url_task load split url s).result = Except.error msg ∧
    findRecord (ingest_url_task load split url s).db url
      = some { r with status := .failed, error_message := some msg } ∧
    (findRecord (ingest_url_task load split url s).db url).map
      IngestionRecord.chunk_count = some none ∧
    (∃ m, (findRecord (ingest_url_task load split url s).db url).map
      IngestionRecord.error_message = some (some m) ∧ m ≠ "") ∧
    (ingest_url_task load split url s).commits.getLastD []
      = (ingest_url_task load split url s).db := by
  rw [ingest_url_task_some_error load split url s r msg h hres]
  dsimp only
  have hfind : findRecord (updateFirst (updateFirst s.db url
      (fun r => { r with status := .processing })) url
      (fun r => { r with status := .failed, error_message := some msg })) url
      = some { r with status := .failed, error_message := some msg } := by
    rw [findRecord_updateFirst _ _
        (fun r => { r with status := .failed, error_message := some msg })
        (fun _ => rfl),
      findRecord_updateFirst _ _
        (fun r => { r with status := .processing }) (fun _ => rfl), h]
    rfl
  refine ⟨rfl, hfind, ?_, ⟨msg, ?_, hm⟩, rfl⟩
  · rw [hfind, Option.map_some']
    exact congrArg some hc
  · rw [hfind]
    rfl

/-- Claim C3, witness: a pending record for url "u" whose fetch yields no
documents ends failed with the raised message recorded and chunk_count
still null. -/
theorem c3_witness :
    (ingest_url_task loadEmpty splitId "u"
        { db := [recPending], index := none }).result
      = Except.error "No content found at u" ∧
    (findRecord (ingest_url_task loadEmpty splitId "u"
        { db := [recPending], index := none }).db "u").map
      IngestionRecord.chunk_count = some none :=
  ⟨(c3_failure_recorded loadEmpty splitId "u" { db := [recPending], index := none }
      recPending "No content found at u" rfl rfl (by decide) rfl).1,
   (c3_failure_recorded loadEmpty splitId "u" { db := [recPending], index := none }
      recPending "No content found at u" rfl rfl (by decide) rfl).2.2.1⟩

/-- Claim C5, counterexample: a worker execution drives a fresh record to
completed, yet completed_at is still NULL — the code never populates it. -/
theorem c5_counterexample :
    ((findRecord (ingest_url_task loadOne splitId "u"
        { db := [recPending], index := none }).db "u").map IngestionRecord.status)
      = some .completed ∧
    ((findRecord (ingest_url_task loadOne splitId "u"
        { db := [recPending], index := none }).db "u").map
      IngestionRecord.completed_at) = some none := ⟨rfl, rfl⟩

/-- Claim C5 (amended): completed_at is null at creation and is never
written: a worker execution leaves every row's completed_at column exactly
as it was, so it stays null even after terminal transitions. -/
theorem c5_completed_at_never_set (load : String → List Doc)
    (split : List Doc → List Chunk) (url : String) (s : WorkerState) :
    (ingest_url_task load split url s).db.map IngestionRecord.completed_at
      = s.db.map IngestionRecord.completed_at ∧
    (∀ i u now, (mkRecord i u now).completed_at = none) := by
  refine ⟨?_, fun _ _ _ => rfl⟩
  cases hfind : findRecord s.db url with
  | some r =>
    cases hres : ingest_url_to_faiss load split url s.index with
    | ok p =>
      obtain ⟨n, idx2⟩ := p
      rw [ingest_url_task_some_ok load split url s r n idx2 hfind hres]
      dsimp only
      rw [map_completedAt_updateFirst _ _
          (fun r => { r with status := .completed, chunk_count := some n })
          (fun _ => rfl),
        map_completedAt_updateFirst _ _
          (fun r => { r with status := .processing }) (fun _ => rfl)]
    | error e =>
      rw [ingest_url_task_some_error load split url s r e hfind hres]
      dsimp only
      rw [map_completedAt_updateFirst _ _
          (fun r => { r with status := .failed, error_message := some e })
          (fun _ => rfl),
        map_completedAt_updateFirst _ _
          (fun r => { r with status := .processing }) (fun _ => rfl)]
  | none =>
    cases hres : ingest_url_to_faiss load split url s.index with
    | ok p =>
      obtain ⟨n, idx2⟩ := p
      rw [ingest_url_task_none_ok load split url s n idx2 hfind hres]
    | error e =>
      rw [ingest_url_task_none_error load split url s e hfind hres]

/-- Claim C9: when no record exists for the url, the worker still performs
the ingestion (on success the on-disk index receives the new chunks and
the task returns normally) while touching no record: the table is
unchanged and nothing is committed. -/
theorem c9_missing_record (load : String → List Doc)
    (split : List Doc → List Chunk) (url : String) (s : WorkerState)
    (h : findRecord s.db url = none) :
    (ingest_url_task load split url s).db = s.db ∧
    (ingest_url_task load split url s).commits = [] ∧
    (∀ n idx2, ingest_url_to_faiss load split url s.index = Except.ok (n, idx2) →
      (ingest_url_task load split url s).index = some idx2 ∧
      (ingest_url_task load split url s).result
        = Except.ok (" Ingested " ++ toString n ++ " chunks from " ++ url)) := by
  cases hres : ingest_url_to_faiss load split url s.index with
  | ok p =>
    obtain ⟨n, idx2⟩ := p
    rw [ingest_url_task_none_ok load split url s n idx2 h hres]
    refine ⟨rfl, rfl, ?_⟩
    intro m jdx hmj
    simp only [Except.ok.injEq, Prod.mk.injEq] at hmj
    obtain ⟨rfl, rfl⟩ := hmj
    exact ⟨rfl, rfl⟩
  | error e =>
    rw [ingest_url_task_none_error load split url s e h hres]
    refine ⟨rfl, rfl, ?_⟩
    intro m jdx hmj
    exact (Except.noConfusion hmj)

/-- Claim C9, witness: an empty table, a url whose fetch yields one
document: the table stays empty, the index gains the chunk, the task
returns its normal message. -/
theorem c9_witness :
    (ingest_url_task loadOne splitId "u" { db := [], index := none }).db = [] ∧
    (ingest_url_task loadOne splitId "u" { db := [], index := none }).index
      = some ["doc"] ∧
    (ingest_url_task loadOne splitId "u" { db := [], index := none }).result
      = Except.ok " Ingested 1 chunks from u" := by
  have h := c9_missing_record loadOne splitId "u" { db := [], index := none } rfl
  exact ⟨h.1, (h.2.2 1 ["doc"] rfl).1, (h.2.2 1 ["doc"] rfl).2⟩

/-- Claim C6: the chunk-store ingest fails with the fetch error exactly
when the loader returns no documents; otherwise it returns the number of
chunks the splitter produced from the fetched documents. -/
theorem c6_fetch_error_iff (load : String → List Doc)
    (split : List Doc → List Chunk) (url : String) (index : FaissIndex) :
    (ingest_url_to_faiss load split url index
        = Except.error ("No content found at " ++ url) ↔ load url = []) ∧
    (load url ≠ [] → ∃ idx2, ingest_url_to_faiss load split url index
        = Except.ok ((split (load url)).length, idx2)) := by
  cases hl : load url with
  | nil =>
    refine ⟨?_, fun hne => absurd rfl hne⟩
    unfold ingest_url_to_faiss
    rw [hl]
    simp
  | cons d ds =>
    constructor
    · unfold ingest_url_to_faiss
      rw [hl]
      simp
    · intro _
      unfold ingest_url_to_faiss
      rw [hl]
      simp only [List.isEmpty_cons, Bool.false_eq_true, if_false]
      exact ⟨_, rfl⟩

/-- Claim C6, witness: a url with no retrievable content raises the fetch
error; a url with one document yields chunk count 1. -/
theorem c6_witness :
    ingest_url_to_faiss loadEmpty splitId "u" none
      = Except.error "No content found at u" ∧
    (∃ idx2, ingest_url_to_faiss loadOne splitId "u" none
      = Except.ok (1, idx2)) := by
  refine ⟨(c6_fetch_error_iff loadEmpty splitId "u" none).1.mpr rfl, ?_⟩
  exact (c6_fetch_error_iff loadOne splitId "u" none).2 (by decide)

/-- Claim C7: ingesting the same url twice against the same index path is
cumulative: the first call creates the index (no file exists yet), the
second loads it and appends its chunks, and the stored chunk count after
both calls is the sum of the two calls' counts. -/
theorem c7_double_ingest_cumulative (load : String → List Doc)
    (split : List Doc → List Chunk) (url : String) (h : load url ≠ []) :
    ∃ n1 i1 n2 i2,
      ingest_url_to_faiss load split url none = Except.ok (n1, i1) ∧
      ingest_url_to_faiss load split url (some i1) = Except.ok (n2, i2) ∧
      i1.length = n1 ∧ i2 = i1 ++ split (load url) ∧ i2.length = n1 + n2 := by
  cases hl : load url with
  | nil => exact absurd hl h
  | cons d ds =>
    refine ⟨(split (d :: ds)).length, split (d :: ds), (split (d :: ds)).length,
      split (d :: ds) ++ split (d :: ds), ?_, ?_, rfl, rfl, by simp⟩
    · unfold ingest_url_to_faiss
      rw [hl]
      rfl
    · unfold ingest_url_to_faiss
      rw [hl]
      rfl

/-- Claim C7, witness: the cumulative theorem at a one-document loader: the
first call stores 1 chunk, the second brings the stored total to 1 + 1. -/
theorem c7_witness :
    ∃ n1 i1 n2 i2,
      ingest_url_to_faiss loadOne splitId "u" none = Except.ok (n1, i1) ∧
      ingest_url_to_faiss loadOne splitId "u" (some i1) = Except.ok (n2, i2) ∧
      i1.length = n1 ∧ i2 = i1 ++ splitId (loadOne "u") ∧ i2.length = n1 + n2 :=
  c7_double_ingest_cumulative loadOne splitId "u" (by decide)

/-- Claim C8: a query before any index file exists fails with a 500 and
leaves the whole API state — in particular the query_logs table —
untouched: no QueryLog row is written. -/
theorem c8_query_before_ingest
    (search : List Chunk → String → Nat → List (String × String))
    (s : ApiState) (q : String) (k : Nat) (h : s.index = none) :
    (query search s q k).2.status_code = 500 ∧
    (query search s q k).1 = s ∧
    (query search s q k).1.query_logs = s.query_logs := by
  unfold query
  rw [h]
  exact ⟨rfl, rfl, rfl⟩

/-- Claim C8, witness: querying the fresh service (no index on disk)
returns 500 and writes nothing. -/
theorem c8_witness :
    (query searchNone emptyState "q" 3).2.status_code = 500 ∧
    (query searchNone emptyState "q" 3).1 = emptyState :=
  ⟨(c8_query_before_ingest searchNone emptyState "q" 3 rfl).1,
   (c8_query_before_ingest searchNone emptyState "q" 3 rfl).2.1⟩

/-- Claim C10: when the /ingest-url insert fails (duplicate url) the
endpoint returns 500 with the state — records and queue — unchanged: the
failed insert is rolled back and nothing is enqueued. When the insert
commits, the record is appended and only then is the task enqueued. -/
theorem c10_ingest_url_duplicate (s : ApiState) (url : String) (now : Nat) :
    (hasUrl s.db url = true →
      (ingest_url s url now).2.status_code = 500 ∧
      (ingest_url s url now).1 = s) ∧
    (hasUrl s.db url = false →
      (ingest_url s url now).1.db = s.db ++ [mkRecord (s.db.length + 1) url now] ∧
      (ingest_url s url now).1.queue = s.queue ++ [url] ∧
      (ingest_url s url now).2.status_code = 200) := by
  constructor
  · intro h
    simp [ingest_url, createRecord, h]
  · intro h
    simp [ingest_url, createRecord, h]

/-- Claim C10, witness: re-ingesting url "u" against a store that already
holds it gives 500 and changes nothing; ingesting it into the empty store
appends the record and enqueues the task. -/
theorem c10_witness :
    (hasUrl stateWithU.db "u" = true ∧
      (ingest_url stateWithU "u" 5).2.status_code = 500 ∧
      (ingest_url stateWithU "u" 5).1 = stateWithU) ∧
    (hasUrl emptyState.db "u" = false ∧
      (ingest_url emptyState "u" 0).1.queue = ["u"] ∧
      (ingest_url emptyState "u" 0).2.status_code = 200) := by
  have h1 := (c10_ingest_url_duplicate stateWithU "u" 5).1 rfl
  have h2 := (c10_ingest_url_duplicate emptyState "u" 0).2 rfl
  exact ⟨⟨rfl, h1.1, h1.2⟩, ⟨rfl, h2.2.1, h2.2.2⟩⟩

/-- Claim C1, counterexample: a two-row CSV whose second row duplicates the
first, submitted against the empty store, does return 500 — but the record
committed for the first row is still in the store afterwards, so the
request's earlier records are NOT rolled back. -/
theorem c1_counterexample :
    emptyState.db = [] ∧
    (ingest_auto emptyState [["u"], ["u"]] 0).2.status_code = 500 ∧
    (ingest_auto emptyState [["u"], ["u"]] 0).1.db = [mkRecord 1 "u" 0] := by
  exact ⟨rfl, rfl, rfl⟩

/-- A successful create means the url was fresh and the new row was
appended with the next autoincrement id. -/
theorem createRecord_ok (db : RecordStore) (u : String) (now : Nat)
    (db1 : RecordStore) (h : createRecord db u now = Except.ok db1) :
    hasUrl db u = false ∧ db1 = db ++ [mkRecord (db.length + 1) u now] := by
  unfold createRecord at h
  cases hb : hasUrl db u with
  | true =>
    rw [hb] at h
    simp at h
  | false =>
    rw [hb] at h
    simp at h
    exact ⟨rfl, h.symm⟩

/-- A failing create means the url already had a committed row. -/
theorem createRecord_error (db : RecordStore) (u : String) (now : Nat)
    (e : String) (h : createRecord db u now = Except.error e) :
    hasUrl db u = true := by
  unfold createRecord at h
  cases hb : hasUrl db u with
  | true => rfl
  | false =>
    rw [hb] at h
    simp at h

/-- When the /ingest-auto loop aborts, the batch splits into a successful
prefix, the failing url and an unprocessed suffix: the store it hands back
is its input store plus one freshly committed pending record per prefix
url, in order, and the failing url already has a row in that store. -/
theorem ingest_auto_loop_fail_spec (now : Nat) :
    ∀ (us : List String) (db : RecordStore) (ids : List Nat)
      (pend : List String) (db' : RecordStore) (ids' : List Nat)
      (pend' : List String) (e : String),
      ingest_auto_loop now us db ids pend = (db', ids', pend', some e) →
      ∃ us₁ u us₂ created,
        us = us₁ ++ u :: us₂ ∧
        db' = db ++ created ∧
        created.map IngestionRecord.url = us₁ ∧
        (∀ r ∈ created, r.status = .pending ∧ r.created_at = now ∧
          r.completed_at = none ∧ r.error_message = none ∧
          r.chunk_count = none) ∧
        hasUrl db' u = true := by
  intro us
  induction us with
  | nil =>
    intro db ids pend db' ids' pend' e h
    simp [ingest_auto_loop] at h
  | cons u rest ih =>
    intro db ids pend db' ids' pend' e h
    simp only [ingest_auto_loop] at h
    cases hc : createRecord db u now with
    | ok db1 =>
      simp only [hc] at h
      obtain ⟨hfresh, hdb1⟩ := createRecord_ok db u now db1 hc
      obtain ⟨us₁, u', us₂, created, hs, hdb, hmap, hprops, hdup⟩ :=
        ih db1 (ids ++ [db.length + 1]) (pend ++ [u]) db' ids' pend' e h
      refine ⟨u :: us₁, u', us₂, mkRecord (db.length + 1) u now :: created,
        ?_, ?_, ?_, ?_, hdup⟩
      · rw [hs]
        rfl
      · rw [hdb, hdb1, List.append_assoc]
        rfl
      · simp only [List.map_cons, hmap]
        rfl
      · intro r hr
        rcases List.mem_cons.mp hr with hr0 | hr1
        · rw [hr0]
          exact ⟨rfl, rfl, rfl, rfl, rfl⟩
        · exact hprops r hr1
    | error e0 =>
      simp only [hc, Prod.mk.injEq, Option.some.injEq] at h
      obtain ⟨h1, h2, h3, h4⟩ := h
      refine ⟨[], u, rest, [], rfl, ?_, rfl, ?_, ?_⟩
      · rw [← h1, List.append_nil]
      · intro r hr
        exact absurd hr (List.not_mem_nil r)
      · rw [← h1]
        exact createRecord_error db u now e0 hc

/-- Claim C1 (amended): for every CSV batch and state in which the per-row
loop fails on some url, the request aborts with a 500 and nothing is
enqueued, but the records committed by the earlier rows of the same
request persist: the resulting store is exactly the pre-request store plus
one pending record per url of the successful prefix, in order — only the
failing, uncommitted insert is discarded (the failing url already has a
row in the store). -/
theorem c1_batch_abort_keeps_committed (s : ApiState) (rows : List (List String))
    (now : Nat) (db' : RecordStore) (ids' : List Nat) (pend' : List String)
    (e : String)
    (hfail : ingest_auto_loop now (parse_csv_urls rows) s.db [] []
      = (db', ids', pend', some e)) :
    (ingest_auto s rows now).2.status_code = 500 ∧
    (ingest_auto s rows now).1.queue = s.queue ∧
    (ingest_auto s rows now).1.db = db' ∧
    ∃ us₁ u us₂ created,
      parse_csv_urls rows = us₁ ++ u :: us₂ ∧
      db' = s.db ++ created ∧
      created.map IngestionRecord.url = us₁ ∧
      (∀ r ∈ created, r.status = .pending ∧ r.created_at = now ∧
        r.completed_at = none ∧ r.error_message = none ∧
        r.chunk_count = none) ∧
      hasUrl db' u = true := by
  obtain ⟨us₁, u, us₂, created, hsplit, hdb, hmap, hprops, hdup⟩ :=
    ingest_auto_loop_fail_spec now (parse_csv_urls rows) s.db [] []
      db' ids' pend' e hfail
  have hne : (parse_csv_urls rows).isEmpty = false := by
    rw [hsplit]
    cases us₁ <;> rfl
  have hmain : ingest_auto s rows now
      = ({ s with db := db' }, { status_code := 500, detail := e }) := by
    unfold ingest_auto
    simp only [hne, Bool.false_eq_true, if_false, hfail]
  rw [hmain]
  exact ⟨rfl, rfl, rfl, us₁, u, us₂, created, hsplit, hdb, hmap, hprops, hdup⟩

/-- Claim C1, witness: the amended theorem applied to the batch
["a", "b", "a"] against the empty service state: both earlier committed
records (for "a" and "b") persist after the 500. -/
theorem c1_witness :
    (ingest_auto emptyState [["a"], ["b"], ["a"]] 7).2.status_code = 500 ∧
    (ingest_auto emptyState [["a"], ["b"], ["a"]] 7).1.queue = emptyState.queue ∧
    (ingest_auto emptyState [["a"], ["b"], ["a"]] 7).1.db
      = [mkRecord 1 "a" 7, mkRecord 2 "b" 7] ∧
    (∃ us₁ u us₂ created,
      parse_csv_urls [["a"], ["b"], ["a"]] = us₁ ++ u :: us₂ ∧
      [mkRecord 1 "a" 7, mkRecord 2 "b" 7] = emptyState.db ++ created ∧
      created.map IngestionRecord.url = us₁ ∧
      (∀ r ∈ created, r.status = .pending ∧ r.created_at = 7 ∧
        r.completed_at = none ∧ r.error_message = none ∧
        r.chunk_count = none) ∧
      hasUrl [mkRecord 1 "a" 7, mkRecord 2 "b" 7] u = true) :=
  c1_batch_abort_keeps_committed emptyState [["a"], ["b"], ["a"]] 7
    [mkRecord 1 "a" 7, mkRecord 2 "b" 7] [1, 2] ["a", "b"]
    "UNIQUE constraint failed: ingestions.url" rfl

/-- Claim C4: on an empty CSV the endpoint actually responds 500, not the
intended 400 — the HTTPException(400) raised for an empty url list is
swallowed by the handler's blanket `except Exception` and re-raised as a
500 whose detail is the stringified 400 error. -/
theorem c4_empty_csv_returns_500 :
    (ingest_auto emptyState [] 0).2.status_code = 500 ∧
    (ingest_auto emptyState [] 0).2.status_code ≠ 400 ∧
    (ingest_auto emptyState [] 0).2.detail = "400: CSV file is empty or invalid." := by
  refine ⟨rfl, ?_, rfl⟩
  decide

end RAG
